import Mathlib

/-!
Shallow embedding of the payroll repository (cutsea110/payment).

The embedding follows the crate sources:
  * `payroll-impl/src/classification.rs`, `affiliation.rs`, `schedule.rs`
    (the enum variants and their `calculate_pay` / `calculate_deductions` /
    `is_pay_date` / `calculate_period` methods);
  * `src/main.rs` (`payroll_domain::Employee`, `Paycheck`, `mock_db::MockDb`);
  * `abstract-tx/src/change_employee_tx.rs` and friends;
  * `tx-impl/src/general/*.rs`, `tx-impl/src/affiliation/*.rs`.

Modelling conventions:
  * `f32` money/hours values are embedded as `ℚ` (exact arithmetic).
  * `chrono::NaiveDate` is embedded as a year/month/day structure `Date`
    with the proleptic-Gregorian rules chrono implements; date ordering is
    lexicographic on (year, month, day), as for valid `NaiveDate`s;
    weekday is computed from the days-since-1970-01-01 number.
  * `Rc<RefCell<dyn ...>>` capability fields of `Employee` are embedded as
    references (indices) into per-capability heaps held by the store, so
    that the sharing semantics of `Employee::clone` (which clones the `Rc`
    pointers, not the pointees) is preserved.
  * Rust panics (`add_timecard` on a non-Hourly classification,
    `get_member_id` on `Unaffiliated`) are embedded as a distinct `panic`
    outcome, separate from the `Err(UsecaseError)` outcome.
  * The only implementors of the `PaymentClassification` / `Affiliation`
    traits in the repository are the enums `PaymentClassificationImpl` /
    `AffiliationImpl`, so the heaps are typed accordingly and the
    `downcast_mut::<PaymentClassificationImpl>` / `downcast_ref::<AffiliationImpl>`
    calls in `timecard_tx.rs` / `change_unaffiliated_tx.rs` always succeed
    (their `ok_or(Unexpected…)` branches are unreachable in the codebase).
-/

namespace Payment

/-- Calendar date, embedding `chrono::NaiveDate` (proleptic Gregorian). -/
structure Date where
  year : Int
  month : Nat
  day : Nat
deriving DecidableEq, Repr

/-- Gregorian leap-year rule, as used by chrono. -/
def isLeapYear (y : Int) : Bool :=
  (y % 4 == 0 && y % 100 != 0) || y % 400 == 0

/-- Number of days in a month (0 for an out-of-range month number). -/
def daysInMonth (y : Int) (m : Nat) : Nat :=
  match m with
  | 1 => 31 | 3 => 31 | 5 => 31 | 7 => 31 | 8 => 31 | 10 => 31 | 12 => 31
  | 4 => 30 | 6 => 30 | 9 => 30 | 11 => 30
  | 2 => if isLeapYear y then 29 else 28
  | _ => 0

/-- A `Date` that `chrono::NaiveDate` could represent. -/
def Date.Valid (d : Date) : Prop :=
  1 ≤ d.month ∧ d.month ≤ 12 ∧ 1 ≤ d.day ∧ d.day ≤ daysInMonth d.year d.month

instance (d : Date) : Decidable d.Valid := by
  unfold Date.Valid; infer_instance

/-- Successor day, embedding `date.checked_add_days(Days::new(1))` on a
valid `NaiveDate`. -/
def Date.nextDay (d : Date) : Date :=
  if d.day < daysInMonth d.year d.month then
    { d with day := d.day + 1 }
  else if d.month < 12 then
    ⟨d.year, d.month + 1, 1⟩
  else
    ⟨d.year + 1, 1, 1⟩

/-- Days since 1970-01-01 (days-from-civil, floor-division form); used for
weekday computation and day iteration, mirroring chrono's internal day
numbering. -/
def Date.toDays (d : Date) : Int :=
  let y : Int := if d.month ≤ 2 then d.year - 1 else d.year
  let era : Int := Int.fdiv y 400
  let yoe : Int := y - era * 400
  let mp : Int := if d.month ≤ 2 then (d.month : Int) + 9 else (d.month : Int) - 3
  let doy : Int := Int.fdiv (153 * mp + 2) 5 + (d.day : Int) - 1
  let doe : Int := yoe * 365 + Int.fdiv yoe 4 - Int.fdiv yoe 100 + doy
  era * 146097 + doe - 719468

/-- Inverse of `Date.toDays` (civil-from-days); needed to embed
`checked_sub_days` for the Weekly/Biweekly schedules. -/
def Date.fromDays (z : Int) : Date :=
  let z' := z + 719468
  let era : Int := Int.fdiv z' 146097
  let doe : Int := z' - era * 146097
  let yoe : Int := Int.fdiv (doe - Int.fdiv doe 1460 + Int.fdiv doe 36524 - Int.fdiv doe 146096) 365
  let y : Int := yoe + era * 400
  let doy : Int := doe - (365 * yoe + Int.fdiv yoe 4 - Int.fdiv yoe 100)
  let mp : Int := Int.fdiv (5 * doy + 2) 153
  let day : Int := doy - Int.fdiv (153 * mp + 2) 5 + 1
  let m : Int := if mp < 10 then mp + 3 else mp - 9
  ⟨if m ≤ 2 then y + 1 else y, m.toNat, day.toNat⟩

/-- Rust `d.checked_sub_days(Days::new(n))`. -/
def Date.subDays (d : Date) (n : Nat) : Date :=
  Date.fromDays (d.toDays - n)

/-- Weekday as a number, 0 = Sunday … 5 = Friday, 6 = Saturday
(1970-01-01 was a Thursday = 4). -/
def Date.weekdayNum (d : Date) : Int :=
  (d.toDays + 4).emod 7

/-- Rust `date.weekday() == Weekday::Fri`. -/
def Date.isFriday (d : Date) : Bool :=
  d.weekdayNum == 5

/-- Day of year (1-based) of a valid date; used for the ISO week number. -/
def Date.ordinal (d : Date) : Nat :=
  (List.range d.month).foldl (fun acc m => acc + daysInMonth d.year m) 0 + d.day

/-- ISO 8601 week number, embedding `date.iso_week().week()`: the week of
the Thursday belonging to `d`'s (Monday-based) week. -/
def Date.isoWeek (d : Date) : Nat :=
  let z := d.toDays
  let mondayBased : Int := (z + 3).emod 7
  let thursday := Date.fromDays (z - mondayBased + 3)
  (thursday.ordinal - 1) / 7 + 1

/-- chrono `NaiveDate` ordering: lexicographic on (year, month, day). -/
def Date.le (a b : Date) : Bool :=
  a.year < b.year ||
    (a.year == b.year &&
      (a.month < b.month || (a.month == b.month && a.day ≤ b.day)))

/-- Rust `RangeInclusive<NaiveDate>`: a pay period `[start, end]`. -/
structure DateRange where
  first : Date
  last : Date
deriving DecidableEq, Repr

/-- Rust `RangeInclusive::contains`. -/
def DateRange.containsDate (p : DateRange) (d : Date) : Bool :=
  Date.le p.first d && Date.le d p.last

/-- The list of day numbers iterated by
`period.start().iter_days()` with the `if d > *period.end() { break; }`
guard: all day numbers from `first` to `last` inclusive (empty when
`first > last`). -/
def DateRange.dayNums (p : DateRange) : List Int :=
  (List.range (p.last.toDays + 1 - p.first.toDays).toNat).map
    (fun i => p.first.toDays + i)

/-- A day number is a Friday (1970-01-01 = day 0 was a Thursday). -/
def isFridayNum (z : Int) : Bool :=
  (z + 4).emod 7 == 5

/-! ## Paycheck (`payroll_domain::Paycheck`) -/

structure Paycheck where
  period : DateRange
  gross_pay : ℚ
  deductions : ℚ
  net_pay : ℚ
deriving DecidableEq, Repr

/-- Rust `Paycheck::new(period)`: fresh paycheck, all amounts zero. -/
def Paycheck.new (period : DateRange) : Paycheck :=
  ⟨period, 0, 0, 0⟩

/-! ## Payment classification (`payroll-impl/src/classification.rs`) -/

structure TimeCard where
  date : Date
  hours : ℚ
deriving DecidableEq, Repr

structure SalesReceipt where
  date : Date
  amount : ℚ
deriving DecidableEq, Repr

inductive PaymentClassificationImpl where
  | salaried (salary : ℚ)
  | hourly (hourly_rate : ℚ) (timecards : List TimeCard)
  | commissioned (salary : ℚ) (commission_rate : ℚ) (sales_receipts : List SalesReceipt)
deriving DecidableEq, Repr

namespace PaymentClassificationImpl

/-- The per-timecard pay of `calculate_pay`'s `calc_pay_for_timecard`
closure: `overtime = (hours - 8.0).max(0.0)`,
`straight_time = hours - overtime`,
`straight_time * rate + overtime * rate * 1.5`. -/
def calcPayForTimecard (hourly_rate : ℚ) (tc : TimeCard) : ℚ :=
  let overtime := max (tc.hours - 8) 0
  let straight_time := tc.hours - overtime
  straight_time * hourly_rate + overtime * hourly_rate * 1.5

/-- Rust `PaymentClassificationImpl::calculate_pay`. -/
def calculate_pay (c : PaymentClassificationImpl) (pc : Paycheck) : ℚ :=
  match c with
  | salaried salary => salary
  | hourly hourly_rate timecards =>
    let period := pc.period
    timecards.foldl
      (fun total_pay tc =>
        if period.containsDate tc.date then
          total_pay + calcPayForTimecard hourly_rate tc
        else total_pay)
      0
  | commissioned salary commission_rate sales_receipts =>
    let period := pc.period
    sales_receipts.foldl
      (fun total_pay sr =>
        if period.containsDate sr.date then
          total_pay + sr.amount * commission_rate
        else total_pay)
      salary

/-- Rust `PaymentClassificationImpl::add_timecard`: pushes onto the Hourly
timecard list and panics (`Except.error` with the panic message) for any
other variant. -/
def add_timecard (c : PaymentClassificationImpl) (tc : TimeCard) :
    Except String PaymentClassificationImpl :=
  match c with
  | hourly hourly_rate timecards => .ok (hourly hourly_rate (timecards ++ [tc]))
  | _ => .error "Timecard is not applicable for this classification"

/-- Rust `PaymentClassificationImpl::add_sales_receipt`. -/
def add_sales_receipt (c : PaymentClassificationImpl) (sr : SalesReceipt) :
    Except String PaymentClassificationImpl :=
  match c with
  | commissioned salary rate receipts =>
    .ok (commissioned salary rate (receipts ++ [sr]))
  | _ => .error "Sales receipt is not applicable for this classification"

end PaymentClassificationImpl

/-! ## Payment schedule (`payroll-impl/src/schedule.rs`) -/

inductive PaymentScheduleImpl where
  | monthly
  | weekly
  | biweekly
deriving DecidableEq, Repr

namespace PaymentScheduleImpl

/-- Rust `PaymentScheduleImpl::is_pay_date`. -/
def is_pay_date (s : PaymentScheduleImpl) (date : Date) : Bool :=
  match s with
  | monthly => date.month != date.nextDay.month
  | weekly => date.isFriday
  | biweekly => date.isFriday && date.isoWeek % 2 == 0

/-- Rust `PaymentScheduleImpl::calculate_period`. -/
def calculate_period (s : PaymentScheduleImpl) (payday : Date) : DateRange :=
  match s with
  | monthly => ⟨{ payday with day := 1 }, payday⟩
  | weekly => ⟨payday.subDays 6, payday⟩
  | biweekly => ⟨payday.subDays 13, payday⟩

end PaymentScheduleImpl

/-! ## Payment method (`payroll-impl/src/method.rs`); `pay` only prints,
so the variant data is carried but `pay` has no embedded effect. -/

inductive PaymentMethodImpl where
  | hold
  | mail (address : String)
  | direct (bank : String) (account : String)
deriving DecidableEq, Repr

/-! ## Affiliation (`payroll-impl/src/affiliation.rs`) -/

structure ServiceCharge where
  date : Date
  amount : ℚ
deriving DecidableEq, Repr

inductive AffiliationImpl where
  | unaffiliated
  | union (member_id : Nat) (dues : ℚ) (service_charges : List ServiceCharge)
deriving DecidableEq, Repr

namespace AffiliationImpl

/-- Rust `AffiliationImpl::calculate_deductions`: iterate the days of the
paycheck's period adding `dues` on each Friday, then add the amounts of
the in-period service charges. -/
def calculate_deductions (a : AffiliationImpl) (pc : Paycheck) : ℚ :=
  match a with
  | unaffiliated => 0
  | union _ dues service_charges =>
    let period := pc.period
    let afterDues :=
      period.dayNums.foldl
        (fun total_deductions d =>
          if isFridayNum d then total_deductions + dues else total_deductions)
        0
    service_charges.foldl
      (fun total_deductions sc =>
        if period.containsDate sc.date then total_deductions + sc.amount
        else total_deductions)
      afterDues

/-- Rust `AffiliationImpl::add_service_charge` (panics for `Unaffiliated`). -/
def add_service_charge (a : AffiliationImpl) (sc : ServiceCharge) :
    Except String AffiliationImpl :=
  match a with
  | unaffiliated => .error "Service charge is not applicable for unaffiliated"
  | union mid dues charges => .ok (union mid dues (charges ++ [sc]))

/-- Rust `AffiliationImpl::get_member_id` (panics for `Unaffiliated`). -/
def get_member_id (a : AffiliationImpl) : Except String Nat :=
  match a with
  | unaffiliated => .error "Unaffiliated has no member id"
  | union member_id _ _ => .ok member_id

end AffiliationImpl

/-! ## Employee (`src/main.rs::payroll_domain::Employee`)

The four capability fields are `Rc<RefCell<dyn …>>` in the source;
`Employee::clone` (derived) clones the `Rc` pointers, so a cloned
`Employee` shares the pointees with the original.  They are embedded as
indices into per-capability heaps held by the store. -/

abbrev EmployeeId := Nat
abbrev MemberId := Nat
abbrev Ref := Nat

structure Employee where
  emp_id : EmployeeId
  name : String
  address : String
  classification : Ref
  schedule : Ref
  method : Ref
  affiliation : Ref
deriving DecidableEq, Repr

/-! ## Errors (`dao::DaoError`, `abstract_tx::UsecaseError`) -/

inductive DaoError where
  | insertError (msg : String)
  | deleteError (msg : String)
  | fetchError (msg : String)
  | updateError (msg : String)
deriving DecidableEq, Repr

inductive UsecaseError where
  | registerEmployeeFailed (e : DaoError)
  | unregisterEmployeeFailed (e : DaoError)
  | notFound (e : DaoError)
  | getAllFailed (e : DaoError)
  | unexpectedPaymentClassification (msg : String)
  | updateEmployeeFailed (e : DaoError)
  | unexpectedAffiliation (msg : String)
  | addUnionMemberFailed (e : DaoError)
  | removeUnionMemberFailed (e : DaoError)
deriving DecidableEq, Repr

/-- Outcome of running a transaction: normal success, a typed
`UsecaseError`, or a Rust panic (process abort). -/
inductive RunResult (α : Type) where
  | ok (a : α)
  | err (e : UsecaseError)
  | panic (msg : String)
deriving DecidableEq, Repr

/-- Tests whether a `RunResult` is an `UnexpectedAffiliation` error. -/
def RunResult.isUnexpectedAffiliation {α : Type} : RunResult α → Bool
  | .err (.unexpectedAffiliation _) => true
  | _ => false

/-- Tests whether a `RunResult` is an `UnexpectedPaymentClassification` error. -/
def RunResult.isUnexpectedPaymentClassification {α : Type} : RunResult α → Bool
  | .err (.unexpectedPaymentClassification _) => true
  | _ => false

/-! ## Association-list helpers standing in for `HashMap` -/

/-- First value bound to `k`, if any (`HashMap::get`). -/
def alookup {β : Type} (l : List (Nat × β)) (k : Nat) : Option β :=
  match l with
  | [] => none
  | (k', v) :: rest => if k' = k then some v else alookup rest k

/-- Replace the value bound to `k` (used where `HashMap::insert` hits an
existing key). -/
def aset {β : Type} (l : List (Nat × β)) (k : Nat) (v : β) : List (Nat × β) :=
  match l with
  | [] => []
  | (k', v') :: rest => if k' = k then (k', v) :: rest else (k', v') :: aset rest k v

/-- Remove the binding of `k` (`HashMap::remove`). -/
def aremove {β : Type} (l : List (Nat × β)) (k : Nat) : List (Nat × β) :=
  match l with
  | [] => []
  | (k', v') :: rest => if k' = k then rest else (k', v') :: aremove rest k

/-! ## The store (`mock_db::MockDb` plus the capability heaps) -/

structure Store where
  classHeap : List PaymentClassificationImpl
  schedHeap : List PaymentScheduleImpl
  methodHeap : List PaymentMethodImpl
  affHeap : List AffiliationImpl
  employees : List (EmployeeId × Employee)
  union_members : List (MemberId × EmployeeId)
  paychecks : List (EmployeeId × List Paycheck)
deriving DecidableEq, Repr

namespace Store

/-- Dereference a classification handle (handles held by stored employees
are always in bounds, so the default is never read through them). -/
def classAt (s : Store) (r : Ref) : PaymentClassificationImpl :=
  s.classHeap.getD r (.salaried 0)

def schedAt (s : Store) (r : Ref) : PaymentScheduleImpl :=
  s.schedHeap.getD r .monthly

def methodAt (s : Store) (r : Ref) : PaymentMethodImpl :=
  s.methodHeap.getD r .hold

def affAt (s : Store) (r : Ref) : AffiliationImpl :=
  s.affHeap.getD r .unaffiliated

/-- In-place write through a classification handle
(`RefCell::borrow_mut` + mutation). -/
def setClassAt (s : Store) (r : Ref) (c : PaymentClassificationImpl) : Store :=
  { s with classHeap := s.classHeap.set r c }

def setAffAt (s : Store) (r : Ref) (a : AffiliationImpl) : Store :=
  { s with affHeap := s.affHeap.set r a }

/-- Rust `Rc::new(RefCell::new(a))` for an affiliation: allocate a fresh cell,
returning the new store and the handle. -/
def allocAff (s : Store) (a : AffiliationImpl) : Store × Ref :=
  ({ s with affHeap := s.affHeap ++ [a] }, s.affHeap.length)

/-! ### `PayrollDao` operations of `MockDb` -/

/-- Rust `MockDb::fetch`: clone of the stored `Employee` (sharing the capability
handles); `FetchError` when absent. -/
def fetch (s : Store) (emp_id : EmployeeId) : Except DaoError Employee :=
  match alookup s.employees emp_id with
  | some emp => .ok emp
  | none => .error (.fetchError ("emp_id=" ++ toString emp_id ++ " not found"))

/-- Rust `MockDb::update`: `UpdateError` when the id is absent, otherwise
replace the stored record. -/
def update (s : Store) (emp : Employee) : Except DaoError Unit × Store :=
  if (alookup s.employees emp.emp_id).isSome then
    (.ok (), { s with employees := aset s.employees emp.emp_id emp })
  else
    (.error (.updateError ("emp_id=" ++ toString emp.emp_id ++ " not found")), s)

/-- Rust `MockDb::delete`: `DeleteError` when the id is absent. -/
def delete (s : Store) (emp_id : EmployeeId) : Except DaoError Unit × Store :=
  if (alookup s.employees emp_id).isSome then
    (.ok (), { s with employees := aremove s.employees emp_id })
  else
    (.error (.deleteError ("emp_id=" ++ toString emp_id ++ " not found")), s)

/-- Rust `MockDb::fetch_all`: the stored employees, in the backing map's
iteration order (never fails in the mock). -/
def fetch_all (s : Store) : List Employee :=
  s.employees.map Prod.snd

/-- Rust `MockDb::remove_union_member`. -/
def remove_union_member (s : Store) (member_id : MemberId) :
    Except DaoError Unit × Store :=
  if (alookup s.union_members member_id).isSome then
    (.ok (), { s with union_members := aremove s.union_members member_id })
  else
    (.error (.deleteError ("member_id=" ++ toString member_id ++ " not found")), s)

/-- Rust `MockDb::record_paycheck`: `entry(emp_id).or_insert(vec![]).push(pc)`;
appends, creating the per-employee list when absent; never fails. -/
def record_paycheck (s : Store) (emp_id : EmployeeId) (pc : Paycheck) : Store :=
  match alookup s.paychecks emp_id with
  | some pcs => { s with paychecks := aset s.paychecks emp_id (pcs ++ [pc]) }
  | none => { s with paychecks := s.paychecks ++ [(emp_id, [pc])] }

/-- Paychecks recorded for `emp_id` (empty when no list exists yet). -/
def paychecksOf (s : Store) (emp_id : EmployeeId) : List Paycheck :=
  (alookup s.paychecks emp_id).getD []

end Store

/-! ## Employee behaviour (`Employee::is_pay_date`, `get_pay_period`,
`payday`), reading the capability objects through the employee's handles -/

def Employee.isPayDate (s : Store) (e : Employee) (date : Date) : Bool :=
  (s.schedAt e.schedule).is_pay_date date

def Employee.getPayPeriod (s : Store) (e : Employee) (payday : Date) : DateRange :=
  (s.schedAt e.schedule).calculate_period payday

/-- Rust `Employee::payday`: compute gross, deductions and net on a fresh
paycheck, then set the three fields (`method.pay` only prints). -/
def Employee.payday (s : Store) (e : Employee) (pc : Paycheck) : Paycheck :=
  let gross_pay := (s.classAt e.classification).calculate_pay pc
  let deductions := (s.affAt e.affiliation).calculate_deductions pc
  let net_pay := gross_pay - deductions
  { pc with gross_pay := gross_pay, deductions := deductions, net_pay := net_pay }

/-! ## Transactions -/

/-- The per-employee body of `PaydayTx::execute`'s loop, folded over the
`fetch_all` result.  `record_paycheck` never fails in `MockDb`, so the
`map_err(UsecaseError::UpdateEmployeeFailed)` branch is unreachable. -/
def paydayLoop (pay_date : Date) : Store → List Employee → RunResult Unit × Store
  | s, [] => (.ok (), s)
  | s, emp :: rest =>
    if emp.isPayDate s pay_date then
      let period := emp.getPayPeriod s pay_date
      let pc := Paycheck.new period
      let pc := emp.payday s pc
      paydayLoop pay_date (s.record_paycheck emp.emp_id pc) rest
    else
      paydayLoop pay_date s rest

/-- Rust `PaydayTx::execute` (`tx-impl/src/general/payday_tx.rs`):
`fetch_all` (never fails in the mock, so `GetAllFailed` is unreachable),
then the per-employee loop. -/
def paydayTx (s : Store) (pay_date : Date) : RunResult Unit × Store :=
  paydayLoop pay_date s s.fetch_all

/-- Rust `TimeCardTx::execute` (`tx-impl/src/general/timecard_tx.rs`): fetch,
downcast the classification to `PaymentClassificationImpl` (always
succeeds: it is the only implementor, so the
`UnexpectedPaymentClassification` branch is dead code), `add_timecard`
in place through the shared handle (panics for non-Hourly), then update. -/
def timeCardTx (s : Store) (emp_id : EmployeeId) (date : Date) (hours : ℚ) :
    RunResult Unit × Store :=
  match s.fetch emp_id with
  | .error e => (.err (.notFound e), s)
  | .ok emp =>
    match (s.classAt emp.classification).add_timecard ⟨date, hours⟩ with
    | .error msg => (.panic msg, s)
    | .ok c =>
      let s := s.setClassAt emp.classification c
      match s.update emp with
      | (.ok _, s) => (.ok (), s)
      | (.error e, s) => (.err (.updateEmployeeFailed e), s)

/-- A mutation closure for `ChangeEmployeeTx`: takes the context (store)
and the fetched employee, may mutate both, and yields an outcome. -/
abbrev MutationFn := Store → Employee → RunResult Unit × Store × Employee

/-- Rust `ChangeEmployeeTx::execute` (`abstract-tx/src/change_employee_tx.rs`):
fetch (`NotFound` when absent) → run the mutation closure → update
(`UpdateEmployeeFailed` on storage failure), short-circuiting on the
closure's error (or panic). -/
def changeEmployeeTx (s : Store) (emp_id : EmployeeId) (f : MutationFn) :
    RunResult Unit × Store :=
  match s.fetch emp_id with
  | .error e => (.err (.notFound e), s)
  | .ok emp =>
    match f s emp with
    | (.ok _, s, emp) =>
      match s.update emp with
      | (.ok _, s) => (.ok (), s)
      | (.error e, s) => (.err (.updateEmployeeFailed e), s)
    | (.err e, s, _) => (.err e, s)
    | (.panic msg, s, _) => (.panic msg, s)

/-- Rust `ChangeAffiliationTx::execute` (`abstract-tx/src/change_affiliation_tx.rs`):
`ChangeEmployeeTx` with the closure `record_membership(ctx, emp)?` then
`emp.set_affiliation(affiliation)`. -/
def changeAffiliationTx (s : Store) (emp_id : EmployeeId)
    (record_membership : MutationFn) (affiliation : Ref) :
    RunResult Unit × Store :=
  changeEmployeeTx s emp_id (fun s emp =>
    match record_membership s emp with
    | (.ok _, s, emp) => (.ok (), s, { emp with affiliation := affiliation })
    | r => r)

/-- Rust `ChangeUnaffiliatedTx::execute`
(`tx-impl/src/affiliation/change_unaffiliated_tx.rs`): allocate the fresh
`Unaffiliated` cell, then `ChangeAffiliationTx` with the closure that
downcasts the current affiliation to `AffiliationImpl` (always succeeds:
it is the only implementor, so the `UnexpectedAffiliation` branch is dead
code), reads `get_member_id` (panics for `Unaffiliated`), and removes the
member from the union index (`RemoveUnionMemberFailed` on failure). -/
def changeUnaffiliatedTx (s : Store) (emp_id : EmployeeId) :
    RunResult Unit × Store :=
  let (s, newAff) := s.allocAff .unaffiliated
  changeAffiliationTx s emp_id
    (fun s emp =>
      match (s.affAt emp.affiliation).get_member_id with
      | .error msg => (.panic msg, s, emp)
      | .ok member_id =>
        match s.remove_union_member member_id with
        | (.ok _, s) => (.ok (), s, emp)
        | (.error e, s) => (.err (.removeUnionMemberFailed e), s, emp))
    newAff

/-- Rust `DeleteEmployeeTx::execute` (`tx-impl/src/general/delete_employee_tx.rs`):
forward to `MockDb::delete`, mapping the error to
`UnregisterEmployeeFailed`. -/
def deleteEmployeeTx (s : Store) (emp_id : EmployeeId) :
    RunResult Unit × Store :=
  match s.delete emp_id with
  | (.ok _, s) => (.ok (), s)
  | (.error e, s) => (.err (.unregisterEmployeeFailed e), s)

/-! ## Helper lemmas about the accumulation loops -/

/-- A fold that conditionally adds `g x` equals the initial value plus the
sum of `g` over the elements satisfying the condition. -/
theorem foldl_cond_add_eq {α : Type} (p : α → Bool) (g : α → ℚ) :
    ∀ (l : List α) (init : ℚ),
      l.foldl (fun acc x => if p x then acc + g x else acc) init
        = init + ((l.filter p).map g).sum := by
  intro l
  induction l with
  | nil => intro init; simp
  | cons x xs ih =>
    intro init
    by_cases h : p x
    · simp [List.foldl_cons, h, ih, add_assoc]
    · simp [List.foldl_cons, h, ih]

/-- A fold that conditionally adds a constant `c` equals the initial value
plus `c` times the count of elements satisfying the condition. -/
theorem foldl_cond_const_eq {α : Type} (p : α → Bool) (c : ℚ) :
    ∀ (l : List α) (init : ℚ),
      l.foldl (fun acc x => if p x then acc + c else acc) init
        = init + c * (l.countP p : ℚ) := by
  intro l
  induction l with
  | nil => intro init; simp
  | cons x xs ih =>
    intro init
    by_cases h : p x
    · simp only [List.foldl_cons, h, if_pos, List.countP_cons, h, ih]
      push_cast
      ring
    · simp only [List.foldl_cons, h, if_neg, Bool.false_eq_true, not_false_iff, ih,
        List.countP_cons]
      simp [h]

/-- The closure `calc_pay_for_timecard` computes the piecewise straight-time/overtime rule. -/
theorem calcPayForTimecard_piecewise (rate : ℚ) (tc : TimeCard) :
    PaymentClassificationImpl.calcPayForTimecard rate tc
      = if tc.hours ≤ 8 then tc.hours * rate
        else 8 * rate + (tc.hours - 8) * rate * 1.5 := by
  unfold PaymentClassificationImpl.calcPayForTimecard
  rcases le_or_lt tc.hours 8 with h | h
  · rw [if_pos h, max_eq_right (sub_nonpos.mpr h)]
    ring
  · rw [if_neg (not_le.mpr h), max_eq_left (sub_nonneg.mpr h.le)]
    ring

/-! ## C2 — Hourly pay -/

/-- C2: for an Hourly classification, `calculate_pay` is the sum, over
exactly the timecards whose date lies in the pay period, of
`hours * rate` when `hours ≤ 8` and `8 * rate + (hours - 8) * rate * 1.5`
when `hours > 8`; a single in-period timecard of 8.0 hours pays
`8 * rate`, and one of 10.0 hours pays `8 * rate + 2 * rate * 1.5`. -/
theorem hourly_pay_overtime_rule :
    (∀ (rate : ℚ) (cards : List TimeCard) (pc : Paycheck),
      PaymentClassificationImpl.calculate_pay (.hourly rate cards) pc
        = ((cards.filter (fun tc => pc.period.containsDate tc.date)).map
            (fun tc => if tc.hours ≤ 8 then tc.hours * rate
                       else 8 * rate + (tc.hours - 8) * rate * 1.5)).sum)
    ∧ (∀ rate : ℚ,
        PaymentClassificationImpl.calculate_pay
            (.hourly rate [⟨⟨2024, 9, 25⟩, 8⟩])
            (Paycheck.new ⟨⟨2024, 9, 1⟩, ⟨2024, 9, 30⟩⟩)
          = 8 * rate)
    ∧ (∀ rate : ℚ,
        PaymentClassificationImpl.calculate_pay
            (.hourly rate [⟨⟨2024, 9, 25⟩, 10⟩])
            (Paycheck.new ⟨⟨2024, 9, 1⟩, ⟨2024, 9, 30⟩⟩)
          = 8 * rate + 2 * rate * 1.5) := by
  have main : ∀ (rate : ℚ) (cards : List TimeCard) (pc : Paycheck),
      PaymentClassificationImpl.calculate_pay (.hourly rate cards) pc
        = ((cards.filter (fun tc => pc.period.containsDate tc.date)).map
            (fun tc => if tc.hours ≤ 8 then tc.hours * rate
                       else 8 * rate + (tc.hours - 8) * rate * 1.5)).sum := by
    intro rate cards pc
    show cards.foldl
        (fun total_pay tc =>
          if pc.period.containsDate tc.date then
            total_pay + PaymentClassificationImpl.calcPayForTimecard rate tc
          else total_pay) 0 = _
    rw [foldl_cond_add_eq (fun tc => pc.period.containsDate tc.date)
      (PaymentClassificationImpl.calcPayForTimecard rate) cards 0]
    rw [zero_add]
    congr 1
    exact List.map_congr_left (fun tc _ => calcPayForTimecard_piecewise rate tc)
  refine ⟨main, fun rate => ?_, fun rate => ?_⟩
  · rw [main]
    norm_num [Paycheck.new, DateRange.containsDate, Date.le]
  · rw [main]
    norm_num [Paycheck.new, DateRange.containsDate, Date.le]

/-! ## C3 — Union deductions -/

/-- C3: for a Union affiliation, deductions equal dues times the number of
Fridays in the paycheck's inclusive period plus the sum of the amounts of
exactly the in-period service charges; for Unaffiliated they are zero;
dues 9.75, a period with exactly 2 Fridays and one in-period charge of
50.0 gives 69.5. -/
theorem union_deductions_rule :
    (∀ (mid : MemberId) (dues : ℚ) (charges : List ServiceCharge) (pc : Paycheck),
      AffiliationImpl.calculate_deductions (.union mid dues charges) pc
        = dues * (pc.period.dayNums.countP isFridayNum : ℚ)
          + ((charges.filter (fun sc => pc.period.containsDate sc.date)).map
              (fun sc => sc.amount)).sum)
    ∧ (∀ pc : Paycheck, AffiliationImpl.calculate_deductions .unaffiliated pc = 0)
    ∧ ((⟨⟨2024, 9, 20⟩, ⟨2024, 9, 27⟩⟩ : DateRange).dayNums.countP isFridayNum = 2
       ∧ AffiliationImpl.calculate_deductions
           (.union 7734 9.75 [⟨⟨2024, 9, 25⟩, 50⟩])
           (Paycheck.new ⟨⟨2024, 9, 20⟩, ⟨2024, 9, 27⟩⟩)
         = 69.5) := by
  have main : ∀ (mid : MemberId) (dues : ℚ) (charges : List ServiceCharge) (pc : Paycheck),
      AffiliationImpl.calculate_deductions (.union mid dues charges) pc
        = dues * (pc.period.dayNums.countP isFridayNum : ℚ)
          + ((charges.filter (fun sc => pc.period.containsDate sc.date)).map
              (fun sc => sc.amount)).sum := by
    intro mid dues charges pc
    show charges.foldl
      (fun total_deductions sc =>
        if pc.period.containsDate sc.date then total_deductions + sc.amount
        else total_deductions)
      (pc.period.dayNums.foldl
        (fun total_deductions d =>
          if isFridayNum d then total_deductions + dues else total_deductions) 0) = _
    rw [foldl_cond_add_eq (fun sc => pc.period.containsDate sc.date)
      (fun sc => sc.amount) charges,
      foldl_cond_const_eq isFridayNum dues pc.period.dayNums 0]
    rw [zero_add]
  have hc : ((⟨⟨2024, 9, 20⟩, ⟨2024, 9, 27⟩⟩ : DateRange).dayNums.countP isFridayNum) = 2 := by
    decide
  refine ⟨main, fun pc => rfl, hc, ?_⟩
  rw [main]
  have hp : (Paycheck.new ⟨⟨2024, 9, 20⟩, ⟨2024, 9, 27⟩⟩).period
      = (⟨⟨2024, 9, 20⟩, ⟨2024, 9, 27⟩⟩ : DateRange) := rfl
  rw [hp, hc]
  have hf : (([⟨⟨2024, 9, 25⟩, (50 : ℚ)⟩] : List ServiceCharge).filter
      (fun sc => (⟨⟨2024, 9, 20⟩, ⟨2024, 9, 27⟩⟩ : DateRange).containsDate sc.date))
      = [⟨⟨2024, 9, 25⟩, (50 : ℚ)⟩] := rfl
  rw [hf]
  norm_num

/-! ## C4 — Monthly schedule -/

/-- C4: for the Monthly schedule and every valid date, `is_pay_date` is
true iff the date is the last calendar day of its month (its next
calendar day falls in a different month), and the pay period is the
inclusive range from the first day of that month to the payday; for
payday 2024-09-30 the period is [2024-09-01, 2024-09-30]. -/
theorem monthly_schedule_rule :
    (∀ d : Date, d.Valid →
      (PaymentScheduleImpl.monthly.is_pay_date d = true
        ↔ d.day = daysInMonth d.year d.month))
    ∧ (∀ d : Date,
        PaymentScheduleImpl.monthly.calculate_period d = ⟨{ d with day := 1 }, d⟩)
    ∧ (PaymentScheduleImpl.monthly.is_pay_date ⟨2024, 9, 30⟩ = true
       ∧ PaymentScheduleImpl.monthly.calculate_period ⟨2024, 9, 30⟩
           = ⟨⟨2024, 9, 1⟩, ⟨2024, 9, 30⟩⟩) := by
  refine ⟨?_, fun d => rfl, by decide, rfl⟩
  intro d hv
  obtain ⟨h1, h2, h3, h4⟩ := hv
  show (d.month != d.nextDay.month) = true ↔ _
  unfold Date.nextDay
  by_cases hlt : d.day < daysInMonth d.year d.month
  · rw [if_pos hlt]
    simp only [bne_self_eq_false]
    constructor
    · intro h; exact absurd h (by simp)
    · intro h; omega
  · rw [if_neg hlt]
    have hday : d.day = daysInMonth d.year d.month := by omega
    by_cases hm : d.month < 12
    · rw [if_pos hm]
      simp only [bne_iff_ne, ne_eq]
      constructor
      · intro _; exact hday
      · intro _; omega
    · rw [if_neg hm]
      simp only [bne_iff_ne, ne_eq]
      constructor
      · intro _; exact hday
      · intro _; omega

/-- Witness for `monthly_schedule_rule`'s validity hypothesis, at
2024-09-30 (the last day of September 2024). -/
theorem monthly_schedule_rule_witness :
    Date.Valid ⟨2024, 9, 30⟩
    ∧ (PaymentScheduleImpl.monthly.is_pay_date ⟨2024, 9, 30⟩ = true
        ↔ (30 : Nat) = daysInMonth 2024 9) :=
  ⟨by decide, monthly_schedule_rule.1 ⟨2024, 9, 30⟩ (by decide)⟩

/-! ## Association-list lemmas -/

theorem alookup_append_of_none {β : Type} :
    ∀ (l₁ l₂ : List (Nat × β)) (k : Nat),
      alookup l₁ k = none → alookup (l₁ ++ l₂) k = alookup l₂ k := by
  intro l₁ l₂ k h
  induction l₁ with
  | nil => rfl
  | cons p rest ih =>
    obtain ⟨k', v⟩ := p
    by_cases hk : k' = k
    · rw [alookup, if_pos hk] at h; exact absurd h (by simp)
    · rw [alookup, if_neg hk] at h
      rw [List.cons_append, alookup, if_neg hk]
      exact ih h

theorem alookup_append_of_some {β : Type} :
    ∀ (l₁ l₂ : List (Nat × β)) (k : Nat) (v : β),
      alookup l₁ k = some v → alookup (l₁ ++ l₂) k = some v := by
  intro l₁ l₂ k v h
  induction l₁ with
  | nil => exact absurd h (by simp [alookup])
  | cons p rest ih =>
    obtain ⟨k', v'⟩ := p
    by_cases hk : k' = k
    · rw [alookup, if_pos hk] at h
      rw [List.cons_append, alookup, if_pos hk]
      exact h
    · rw [alookup, if_neg hk] at h
      rw [List.cons_append, alookup, if_neg hk]
      exact ih h

theorem alookup_aset_of_some {β : Type} :
    ∀ (l : List (Nat × β)) (k : Nat) (v₀ v : β),
      alookup l k = some v₀ → alookup (aset l k v) k = some v := by
  intro l k v₀ v h
  induction l with
  | nil => exact absurd h (by simp [alookup])
  | cons p rest ih =>
    obtain ⟨k', v'⟩ := p
    by_cases hk : k' = k
    · rw [aset, if_pos hk, alookup, if_pos hk]
    · rw [alookup, if_neg hk] at h
      rw [aset, if_neg hk, alookup, if_neg hk]
      exact ih h

theorem alookup_aset_ne {β : Type} :
    ∀ (l : List (Nat × β)) (k k' : Nat) (v : β), k' ≠ k →
      alookup (aset l k v) k' = alookup l k' := by
  intro l k k' v hne
  induction l with
  | nil => rfl
  | cons p rest ih =>
    obtain ⟨k₀, v₀⟩ := p
    by_cases hk : k₀ = k
    · rw [aset, if_pos hk, alookup, alookup, if_neg (by omega), if_neg (by omega)]
    · rw [aset, if_neg hk]
      by_cases hk' : k₀ = k'
      · rw [alookup, alookup, if_pos hk', if_pos hk']
      · rw [alookup, alookup, if_neg hk', if_neg hk']
        exact ih

/-! ## `record_paycheck` frame lemmas -/

theorem record_paycheck_classHeap (s : Store) (emp_id : EmployeeId) (pc : Paycheck) :
    (s.record_paycheck emp_id pc).classHeap = s.classHeap := by
  unfold Store.record_paycheck
  cases alookup s.paychecks emp_id <;> rfl

theorem record_paycheck_schedHeap (s : Store) (emp_id : EmployeeId) (pc : Paycheck) :
    (s.record_paycheck emp_id pc).schedHeap = s.schedHeap := by
  unfold Store.record_paycheck
  cases alookup s.paychecks emp_id <;> rfl

theorem record_paycheck_affHeap (s : Store) (emp_id : EmployeeId) (pc : Paycheck) :
    (s.record_paycheck emp_id pc).affHeap = s.affHeap := by
  unfold Store.record_paycheck
  cases alookup s.paychecks emp_id <;> rfl

theorem record_paycheck_employees (s : Store) (emp_id : EmployeeId) (pc : Paycheck) :
    (s.record_paycheck emp_id pc).employees = s.employees := by
  unfold Store.record_paycheck
  cases alookup s.paychecks emp_id <;> rfl

theorem record_paycheck_union (s : Store) (emp_id : EmployeeId) (pc : Paycheck) :
    (s.record_paycheck emp_id pc).union_members = s.union_members := by
  unfold Store.record_paycheck
  cases alookup s.paychecks emp_id <;> rfl

theorem record_paycheck_self (s : Store) (emp_id : EmployeeId) (pc : Paycheck) :
    (s.record_paycheck emp_id pc).paychecksOf emp_id = s.paychecksOf emp_id ++ [pc] := by
  unfold Store.record_paycheck Store.paychecksOf
  cases h : alookup s.paychecks emp_id with
  | none =>
    simp only
    rw [alookup_append_of_none s.paychecks [(emp_id, [pc])] emp_id h]
    simp [alookup]
  | some pcs =>
    simp only
    rw [alookup_aset_of_some s.paychecks emp_id pcs (pcs ++ [pc]) h]
    rfl

theorem record_paycheck_other (s : Store) (emp_id k : EmployeeId) (pc : Paycheck)
    (hne : k ≠ emp_id) :
    (s.record_paycheck emp_id pc).paychecksOf k = s.paychecksOf k := by
  unfold Store.record_paycheck Store.paychecksOf
  cases h : alookup s.paychecks emp_id with
  | none =>
    simp only
    by_cases hk : alookup s.paychecks k = none
    · rw [alookup_append_of_none s.paychecks [(emp_id, [pc])] k hk, hk]
      simp [alookup, hne.symm]
    · obtain ⟨v, hv⟩ := Option.ne_none_iff_exists'.mp hk
      rw [alookup_append_of_some s.paychecks [(emp_id, [pc])] k v hv, hv]
  | some pcs =>
    simp only
    rw [alookup_aset_ne s.paychecks emp_id k (pcs ++ [pc]) hne]

/-! ## C7 — ChangeEmployeeTx fetch → mutate → update -/

/-- C7: `ChangeEmployeeTx` performs fetch, mutation and update in order
and short-circuits: a failing fetch yields `NotFound` with nothing else
run (state unchanged, for every mutation function); a failing mutation
yields its error with no update attempted (the result state is exactly
the mutation's state); the update runs only after a successful mutation,
and its failure yields `UpdateEmployeeFailed`. -/
theorem changeEmployeeTx_short_circuit :
    (∀ (s : Store) (emp_id : EmployeeId) (f : MutationFn),
      alookup s.employees emp_id = none →
      changeEmployeeTx s emp_id f
        = (.err (.notFound (.fetchError ("emp_id=" ++ toString emp_id ++ " not found"))), s))
    ∧ (∀ (s : Store) (emp_id : EmployeeId) (f : MutationFn)
        (emp : Employee) (e : UsecaseError) (s' : Store) (emp' : Employee),
      s.fetch emp_id = .ok emp →
      f s emp = (.err e, s', emp') →
      changeEmployeeTx s emp_id f = (.err e, s'))
    ∧ (∀ (s : Store) (emp_id : EmployeeId) (f : MutationFn)
        (emp : Employee) (s' : Store) (emp' : Employee) (de : DaoError) (s'' : Store),
      s.fetch emp_id = .ok emp →
      f s emp = (.ok (), s', emp') →
      s'.update emp' = (.error de, s'') →
      changeEmployeeTx s emp_id f = (.err (.updateEmployeeFailed de), s''))
    ∧ (∀ (s : Store) (emp_id : EmployeeId) (f : MutationFn)
        (emp : Employee) (s' : Store) (emp' : Employee) (s'' : Store),
      s.fetch emp_id = .ok emp →
      f s emp = (.ok (), s', emp') →
      s'.update emp' = (.ok (), s'') →
      changeEmployeeTx s emp_id f = (.ok (), s'')) := by
  refine ⟨?_, ?_, ?_, ?_⟩
  · intro s emp_id f h
    unfold changeEmployeeTx Store.fetch
    rw [h]
  · intro s emp_id f emp e s' emp' hfetch hf
    unfold changeEmployeeTx
    simp only [hfetch, hf]
  · intro s emp_id f emp s' emp' de s'' hfetch hf hupd
    unfold changeEmployeeTx
    simp only [hfetch, hf, hupd]
  · intro s emp_id f emp s' emp' s'' hfetch hf hupd
    unfold changeEmployeeTx
    simp only [hfetch, hf, hupd]

/-- Sample employee 1: Salaried 1000, Monthly, Hold, Unaffiliated (all
handles pointing at slot 0 of the respective heaps). -/
def sampleEmp : Employee :=
  ⟨1, "Bob", "Home", 0, 0, 0, 0⟩

def sampleStore : Store :=
  { classHeap := [.salaried 1000]
    schedHeap := [.monthly]
    methodHeap := [.hold]
    affHeap := [.unaffiliated]
    employees := [(1, sampleEmp)]
    union_members := []
    paychecks := [] }

/-- A mutation closure that fails without touching anything. -/
def mutFail : MutationFn :=
  fun s emp => (.err (.unexpectedAffiliation "boom"), s, emp)

/-- A mutation closure that renames the employee. -/
def mutRename : MutationFn :=
  fun s emp => (.ok (), s, { emp with name := "Alice" })

/-- A mutation closure that rewrites the employee id to an absent one, so
that the subsequent storage update fails. -/
def mutBreakId : MutationFn :=
  fun s emp => (.ok (), s, { emp with emp_id := 2 })

/-- Witness for `changeEmployeeTx_short_circuit` on `sampleStore`. -/
theorem changeEmployeeTx_short_circuit_witness :
    (alookup sampleStore.employees 2 = none
      ∧ changeEmployeeTx sampleStore 2 mutFail
          = (.err (.notFound (.fetchError ("emp_id=" ++ toString (2 : Nat) ++ " not found"))),
             sampleStore))
    ∧ (sampleStore.fetch 1 = .ok sampleEmp
      ∧ mutFail sampleStore sampleEmp
          = (.err (.unexpectedAffiliation "boom"), sampleStore, sampleEmp)
      ∧ changeEmployeeTx sampleStore 1 mutFail
          = (.err (.unexpectedAffiliation "boom"), sampleStore))
    ∧ (mutBreakId sampleStore sampleEmp
          = (.ok (), sampleStore, { sampleEmp with emp_id := 2 })
      ∧ sampleStore.update { sampleEmp with emp_id := 2 }
          = (.error (.updateError ("emp_id=" ++ toString (2 : Nat) ++ " not found")), sampleStore)
      ∧ changeEmployeeTx sampleStore 2 mutBreakId
          = (.err (.notFound (.fetchError ("emp_id=" ++ toString (2 : Nat) ++ " not found"))),
             sampleStore)
      ∧ changeEmployeeTx sampleStore 1 mutBreakId
          = (.err (.updateEmployeeFailed
              (.updateError ("emp_id=" ++ toString (2 : Nat) ++ " not found"))), sampleStore))
    ∧ changeEmployeeTx sampleStore 1 mutRename
        = (.ok (), { sampleStore with employees := [(1, { sampleEmp with name := "Alice" })] }) :=
  ⟨⟨rfl, changeEmployeeTx_short_circuit.1 sampleStore 2 mutFail rfl⟩,
   ⟨rfl, rfl,
    changeEmployeeTx_short_circuit.2.1 sampleStore 1 mutFail sampleEmp
      (.unexpectedAffiliation "boom") sampleStore sampleEmp rfl rfl⟩,
   ⟨rfl, rfl,
    changeEmployeeTx_short_circuit.1 sampleStore 2 mutBreakId rfl,
    changeEmployeeTx_short_circuit.2.2.1 sampleStore 1 mutBreakId sampleEmp
      sampleStore { sampleEmp with emp_id := 2 }
      (.updateError ("emp_id=" ++ toString (2 : Nat) ++ " not found")) sampleStore rfl rfl rfl⟩,
   changeEmployeeTx_short_circuit.2.2.2 sampleStore 1 mutRename sampleEmp
     sampleStore { sampleEmp with name := "Alice" }
     { sampleStore with employees := [(1, { sampleEmp with name := "Alice" })] } rfl rfl rfl⟩

/-! ## C8 — DeleteEmployeeTx and the union index -/

/-- C8: `DeleteEmployeeTx` on an absent id fails with
`UnregisterEmployeeFailed`, and on any id it leaves the union-member
index completely unchanged — in particular a union member's
`member_id → emp_id` entry survives the deletion of that employee
(no cascading cleanup, the entry goes stale). -/
theorem deleteEmployeeTx_no_union_cleanup :
    (∀ (s : Store) (emp_id : EmployeeId),
      (deleteEmployeeTx s emp_id).2.union_members = s.union_members)
    ∧ (∀ (s : Store) (emp_id : EmployeeId) (member_id : MemberId),
      alookup s.union_members member_id = some emp_id →
      alookup (deleteEmployeeTx s emp_id).2.union_members member_id = some emp_id)
    ∧ (∀ (s : Store) (emp_id : EmployeeId),
      alookup s.employees emp_id = none →
      deleteEmployeeTx s emp_id
        = (.err (.unregisterEmployeeFailed
            (.deleteError ("emp_id=" ++ toString emp_id ++ " not found"))), s)) := by
  have hframe : ∀ (s : Store) (emp_id : EmployeeId),
      (deleteEmployeeTx s emp_id).2.union_members = s.union_members := by
    intro s emp_id
    unfold deleteEmployeeTx Store.delete
    by_cases h : (alookup s.employees emp_id).isSome
    · rw [if_pos h]
    · rw [if_neg h]
  refine ⟨hframe, ?_, ?_⟩
  · intro s emp_id member_id h
    rw [hframe s emp_id]
    exact h
  · intro s emp_id h
    unfold deleteEmployeeTx Store.delete
    rw [h]
    rfl

/-- A store holding a union member (employee 1 ↔ member 42) whose
affiliation cell is `Union`. -/
def unionStore : Store :=
  { classHeap := [.salaried 1000]
    schedHeap := [.monthly]
    methodHeap := [.hold]
    affHeap := [.union 42 9.75 []]
    employees := [(1, sampleEmp)]
    union_members := [(42, 1)]
    paychecks := [] }

/-- Witness for `deleteEmployeeTx_no_union_cleanup`: deleting union member
employee 1 leaves the stale (42, 1) index entry; deleting absent id 5
fails typed. -/
theorem deleteEmployeeTx_no_union_cleanup_witness :
    (alookup unionStore.union_members 42 = some 1
      ∧ alookup (deleteEmployeeTx unionStore 1).2.union_members 42 = some 1)
    ∧ (alookup unionStore.employees 5 = none
      ∧ deleteEmployeeTx unionStore 5
          = (.err (.unregisterEmployeeFailed
              (.deleteError ("emp_id=" ++ toString (5 : Nat) ++ " not found"))), unionStore)) :=
  ⟨⟨rfl, deleteEmployeeTx_no_union_cleanup.2.1 unionStore 1 42 rfl⟩,
   ⟨rfl, deleteEmployeeTx_no_union_cleanup.2.2 unionStore 5 rfl⟩⟩

/-! ## C5 — TimeCardTx against a non-Hourly classification

The claim says the transaction returns the typed
`UnexpectedPaymentClassification` error.  In the code the downcast in
`timecard_tx.rs` is to the enum type `PaymentClassificationImpl` itself,
which succeeds for *every* variant (it is the only implementor of the
`PaymentClassification` trait), and the subsequent
`add_timecard` call panics for a non-Hourly variant
(`classification.rs`: `panic!("Timecard is not applicable for this
classification")`).  The typed error would only be produced for a
classification object that is not a `PaymentClassificationImpl` at all,
which never occurs in the repository. -/

/-- The classification is the Hourly variant. -/
def PaymentClassificationImpl.isHourly : PaymentClassificationImpl → Bool
  | .hourly _ _ => true
  | _ => false

/-- C5 counterexample: on `sampleStore` (employee 1 is Salaried),
`TimeCardTx` does not return `UnexpectedPaymentClassification`; it panics
in `add_timecard`, with the store untouched at that point. -/
theorem timecard_salaried_counterexample :
    (timeCardTx sampleStore 1 ⟨2024, 9, 2⟩ 8).1.isUnexpectedPaymentClassification = false
    ∧ timeCardTx sampleStore 1 ⟨2024, 9, 2⟩ 8
        = (.panic "Timecard is not applicable for this classification", sampleStore) :=
  ⟨rfl, rfl⟩

/-- C5 amended: for every stored employee whose classification is a
non-Hourly `PaymentClassificationImpl` variant, `TimeCardTx` panics
(aborts) inside `add_timecard` with the panic message above rather than
returning a typed error, and the store is unmodified at the abort point. -/
theorem timecard_non_hourly_panics :
    ∀ (s : Store) (emp_id : EmployeeId) (emp : Employee) (date : Date) (hours : ℚ),
      alookup s.employees emp_id = some emp →
      (s.classAt emp.classification).isHourly = false →
      timeCardTx s emp_id date hours
        = (.panic "Timecard is not applicable for this classification", s) := by
  intro s emp_id emp date hours hlook hnh
  unfold timeCardTx Store.fetch
  simp only [hlook]
  cases hc : s.classAt emp.classification with
  | hourly rate cards =>
    rw [hc] at hnh
    exact absurd hnh (by simp [PaymentClassificationImpl.isHourly])
  | salaried salary => rfl
  | commissioned salary rate receipts => rfl

/-- Witness for `timecard_non_hourly_panics` at `sampleStore`. -/
theorem timecard_non_hourly_panics_witness :
    alookup sampleStore.employees 1 = some sampleEmp
    ∧ (sampleStore.classAt sampleEmp.classification).isHourly = false
    ∧ timeCardTx sampleStore 1 ⟨2024, 9, 3⟩ 10
        = (.panic "Timecard is not applicable for this classification", sampleStore) :=
  ⟨rfl, rfl, timecard_non_hourly_panics sampleStore 1 sampleEmp ⟨2024, 9, 3⟩ 10 rfl rfl⟩

/-! ## C6 — ChangeUnaffiliatedTx on an already-Unaffiliated employee

Same downcast pattern as C5: `change_unaffiliated_tx.rs` downcasts the
current affiliation to the enum type `AffiliationImpl` (always succeeds,
the only implementor), then `get_member_id` panics on `Unaffiliated`
(`affiliation.rs`: `panic!("Unaffiliated has no member id")`).  The typed
`UnexpectedAffiliation` error is unreachable in the repository. -/

/-- Appending a fresh `Unaffiliated` cell preserves an `Unaffiliated`
reading through any handle (in- or out-of-bounds). -/
theorem affAt_alloc_unaffiliated (s : Store) (r : Ref)
    (h : s.affAt r = .unaffiliated) :
    ((s.allocAff .unaffiliated).1).affAt r = .unaffiliated := by
  unfold Store.allocAff Store.affAt at *
  simp only
  by_cases hr : r < s.affHeap.length
  · rw [List.getD_append _ _ _ _ hr]
    exact h
  · rw [List.getD_append_right _ _ _ _ (not_lt.mp hr)]
    cases hk : r - s.affHeap.length with
    | zero => rfl
    | succ k => rfl

/-- C6 counterexample: on `sampleStore` (employee 1 is Unaffiliated),
`ChangeUnaffiliatedTx` does not return `UnexpectedAffiliation`; it panics
in `get_member_id`. -/
theorem changeUnaffiliated_counterexample :
    (changeUnaffiliatedTx sampleStore 1).1.isUnexpectedAffiliation = false
    ∧ (changeUnaffiliatedTx sampleStore 1).1 = .panic "Unaffiliated has no member id" :=
  ⟨rfl, rfl⟩

/-- C6 amended: for every stored employee whose current affiliation is
`Unaffiliated`, `ChangeUnaffiliatedTx` panics (aborts) inside
`get_member_id` with the panic message above rather than returning the
typed `UnexpectedAffiliation` error (the member-id extraction precedes
the union-index removal, which therefore never runs). -/
theorem changeUnaffiliated_on_unaffiliated_panics :
    ∀ (s : Store) (emp_id : EmployeeId) (emp : Employee),
      alookup s.employees emp_id = some emp →
      s.affAt emp.affiliation = .unaffiliated →
      changeUnaffiliatedTx s emp_id
        = (.panic "Unaffiliated has no member id", (s.allocAff .unaffiliated).1) := by
  intro s emp_id emp hlook haff
  have haff' := affAt_alloc_unaffiliated s emp.affiliation haff
  unfold changeUnaffiliatedTx changeAffiliationTx changeEmployeeTx Store.fetch Store.allocAff
  simp only
  unfold Store.allocAff at haff'
  simp only [hlook, haff']
  rfl

/-- Witness for `changeUnaffiliated_on_unaffiliated_panics` at
`sampleStore`. -/
theorem changeUnaffiliated_on_unaffiliated_panics_witness :
    alookup sampleStore.employees 1 = some sampleEmp
    ∧ sampleStore.affAt sampleEmp.affiliation = .unaffiliated
    ∧ changeUnaffiliatedTx sampleStore 1
        = (.panic "Unaffiliated has no member id", (sampleStore.allocAff .unaffiliated).1) :=
  ⟨rfl, rfl, changeUnaffiliated_on_unaffiliated_panics sampleStore 1 sampleEmp rfl rfl⟩

/-! ## Payday bookkeeping -/

/-- The paycheck `PaydayTx` computes for an eligible employee: a fresh
paycheck for `schedule.period_for(pay_date)` with gross pay from the
classification, deductions from the affiliation, and net = gross −
deductions (`Employee::payday`). -/
def expectedPaycheck (s : Store) (emp : Employee) (pay_date : Date) : Paycheck :=
  Employee.payday s emp (Paycheck.new (Employee.getPayPeriod s emp pay_date))

/-- Recording a paycheck does not disturb pay-date eligibility. -/
theorem isPayDate_record (s : Store) (i : EmployeeId) (pc : Paycheck)
    (e : Employee) (d : Date) :
    Employee.isPayDate (s.record_paycheck i pc) e d = Employee.isPayDate s e d := by
  unfold Employee.isPayDate Store.schedAt
  rw [record_paycheck_schedHeap]

/-- Recording a paycheck does not disturb the computed paycheck of any
employee. -/
theorem expectedPaycheck_record (s : Store) (i : EmployeeId) (pc : Paycheck)
    (e : Employee) (d : Date) :
    expectedPaycheck (s.record_paycheck i pc) e d = expectedPaycheck s e d := by
  unfold expectedPaycheck Employee.payday Employee.getPayPeriod Store.schedAt
    Store.classAt Store.affAt
  rw [record_paycheck_schedHeap, record_paycheck_classHeap, record_paycheck_affHeap]

/-! ## C9 — PaydayTx is not idempotent -/

/-- C9: `record_paycheck` appends to the per-employee list (creating it
when absent, never removing or overwriting, other employees untouched),
so running `PaydayTx` twice with the same pay date over an unchanged
eligible employee leaves two (identical) paychecks for that employee,
one per run. -/
theorem payday_not_idempotent :
    (∀ (s : Store) (emp_id : EmployeeId) (pc : Paycheck),
      (s.record_paycheck emp_id pc).paychecksOf emp_id = s.paychecksOf emp_id ++ [pc])
    ∧ (∀ (s : Store) (emp_id k : EmployeeId) (pc : Paycheck), k ≠ emp_id →
      (s.record_paycheck emp_id pc).paychecksOf k = s.paychecksOf k)
    ∧ (∀ (s : Store) (emp : Employee) (pay_date : Date),
      s.employees = [(emp.emp_id, emp)] →
      Employee.isPayDate s emp pay_date = true →
      (paydayTx s pay_date).1 = .ok ()
      ∧ (paydayTx ((paydayTx s pay_date).2) pay_date).1 = .ok ()
      ∧ (paydayTx ((paydayTx s pay_date).2) pay_date).2.paychecksOf emp.emp_id
          = s.paychecksOf emp.emp_id
            ++ [expectedPaycheck s emp pay_date, expectedPaycheck s emp pay_date]) := by
  refine ⟨record_paycheck_self, fun s i k pc h => record_paycheck_other s i k pc h, ?_⟩
  intro s emp pay_date hemp helig
  have h1 : paydayTx s pay_date
      = (.ok (), s.record_paycheck emp.emp_id (expectedPaycheck s emp pay_date)) := by
    unfold paydayTx Store.fetch_all
    rw [hemp]
    show paydayLoop pay_date s [emp] = _
    simp only [paydayLoop, helig, if_true]
    rfl
  set s1 := s.record_paycheck emp.emp_id (expectedPaycheck s emp pay_date) with hs1
  have helig1 : Employee.isPayDate s1 emp pay_date = true := by
    rw [hs1, isPayDate_record]; exact helig
  have hemployees : s1.employees = [(emp.emp_id, emp)] := by
    rw [hs1, record_paycheck_employees, hemp]
  have h2 : paydayTx s1 pay_date
      = (.ok (), s1.record_paycheck emp.emp_id (expectedPaycheck s1 emp pay_date)) := by
    unfold paydayTx Store.fetch_all
    rw [hemployees]
    show paydayLoop pay_date s1 [emp] = _
    simp only [paydayLoop, helig1, if_true]
    rfl
  have hpc1 : expectedPaycheck s1 emp pay_date = expectedPaycheck s emp pay_date := by
    rw [hs1, expectedPaycheck_record]
  rw [h1]
  refine ⟨rfl, ?_, ?_⟩
  · show (paydayTx s1 pay_date).1 = .ok ()
    rw [h2]
  · show (paydayTx s1 pay_date).2.paychecksOf emp.emp_id = _
    rw [h2]
    show (s1.record_paycheck emp.emp_id (expectedPaycheck s1 emp pay_date)).paychecksOf emp.emp_id = _
    rw [record_paycheck_self, hpc1, hs1, record_paycheck_self, List.append_assoc]
    rfl

/-- A single hourly employee on the Weekly schedule (handles at slot 0). -/
def hourlyStore : Store :=
  { classHeap := [.hourly 15 [⟨⟨2024, 9, 24⟩, 8⟩]]
    schedHeap := [.weekly]
    methodHeap := [.hold]
    affHeap := [.unaffiliated]
    employees := [(1, sampleEmp)]
    union_members := []
    paychecks := [] }

/-- Witness for `payday_not_idempotent`: two payday runs for Friday
2024-09-27 over the single weekly employee leave two paychecks. -/
theorem payday_not_idempotent_witness :
    hourlyStore.employees = [(sampleEmp.emp_id, sampleEmp)]
    ∧ Employee.isPayDate hourlyStore sampleEmp ⟨2024, 9, 27⟩ = true
    ∧ ((paydayTx hourlyStore ⟨2024, 9, 27⟩).1 = .ok ()
      ∧ (paydayTx ((paydayTx hourlyStore ⟨2024, 9, 27⟩).2) ⟨2024, 9, 27⟩).1 = .ok ()
      ∧ (paydayTx ((paydayTx hourlyStore ⟨2024, 9, 27⟩).2) ⟨2024, 9, 27⟩).2.paychecksOf
            sampleEmp.emp_id
          = hourlyStore.paychecksOf sampleEmp.emp_id
            ++ [expectedPaycheck hourlyStore sampleEmp ⟨2024, 9, 27⟩,
                expectedPaycheck hourlyStore sampleEmp ⟨2024, 9, 27⟩]) :=
  ⟨rfl, by decide,
   payday_not_idempotent.2.2 hourlyStore sampleEmp ⟨2024, 9, 27⟩ rfl (by decide)⟩

/-! ## C10 — fetched employees share capability objects with the store -/

/-- Writing a slot below the length and reading it back through `getD`. -/
theorem getD_set_self {α : Type} :
    ∀ (l : List α) (i : Nat) (a d : α), i < l.length → (l.set i a).getD i d = a := by
  intro l
  induction l with
  | nil => intro i a d h; simp at h
  | cons x xs ih =>
    intro i a d h
    cases i with
    | zero => rfl
    | succ n =>
      show (xs.set n a).getD n d = a
      exact ih n a d (by simpa using h)

/-- A handle that reads as `Hourly` is in bounds (the out-of-bounds
default is `Salaried 0`). -/
theorem classAt_hourly_lt (s : Store) (r : Ref) (rate : ℚ) (cards : List TimeCard)
    (h : s.classAt r = .hourly rate cards) : r < s.classHeap.length := by
  by_contra hge
  unfold Store.classAt at h
  rw [List.getD_eq_default _ _ (not_lt.mp hge)] at h
  cases h

/-- A mutation closure in the style of C10: append a timecard in place
through the fetched employee's classification handle
(`emp.get_classification().borrow_mut()…add_timecard(tc)`), then return
an error, so the enclosing `ChangeEmployeeTx` never reaches its update
step. -/
def appendTimecardThenFail (tc : TimeCard) (e₀ : UsecaseError) : MutationFn :=
  fun s emp =>
    match (s.classAt emp.classification).add_timecard tc with
    | .ok c => (.err e₀, s.setClassAt emp.classification c, emp)
    | .error msg => (.panic msg, s, emp)

/-- C10: `fetch` returns a clone whose capability fields are the stored
employee's own shared handles, so an in-place append through the fetched
copy — here a mutation closure that appends a timecard and then fails —
is already visible in the store when the transaction returns its error:
the employees map was never updated, yet reading the stored employee's
classification handle shows the appended timecard (nothing is undone). -/
theorem fetch_shares_capability_handles :
    (∀ (s : Store) (emp_id : EmployeeId) (emp : Employee),
      alookup s.employees emp_id = some emp → s.fetch emp_id = .ok emp)
    ∧ (∀ (s : Store) (emp_id : EmployeeId) (emp : Employee) (rate : ℚ)
        (cards : List TimeCard) (tc : TimeCard) (e₀ : UsecaseError),
      alookup s.employees emp_id = some emp →
      s.classAt emp.classification = .hourly rate cards →
      changeEmployeeTx s emp_id (appendTimecardThenFail tc e₀)
          = (.err e₀, s.setClassAt emp.classification (.hourly rate (cards ++ [tc])))
      ∧ (s.setClassAt emp.classification (.hourly rate (cards ++ [tc]))).employees
          = s.employees
      ∧ (s.setClassAt emp.classification (.hourly rate (cards ++ [tc]))).classAt
            emp.classification
          = .hourly rate (cards ++ [tc])) := by
  constructor
  · intro s emp_id emp h
    unfold Store.fetch
    rw [h]
  · intro s emp_id emp rate cards tc e₀ hlook hc
    refine ⟨?_, rfl, ?_⟩
    · unfold changeEmployeeTx Store.fetch
      simp only [hlook]
      unfold appendTimecardThenFail
      rw [hc]
      rfl
    · exact getD_set_self s.classHeap emp.classification _ _
        (classAt_hourly_lt s emp.classification rate cards hc)

/-- Witness for `fetch_shares_capability_handles` on `hourlyStore`. -/
theorem fetch_shares_capability_handles_witness :
    (alookup hourlyStore.employees 1 = some sampleEmp
      ∧ hourlyStore.fetch 1 = .ok sampleEmp)
    ∧ (hourlyStore.classAt sampleEmp.classification
          = .hourly 15 [⟨⟨2024, 9, 24⟩, 8⟩]
      ∧ (changeEmployeeTx hourlyStore 1
            (appendTimecardThenFail ⟨⟨2024, 9, 26⟩, 4⟩ (.unexpectedAffiliation "mid-tx"))
          = (.err (.unexpectedAffiliation "mid-tx"),
             hourlyStore.setClassAt sampleEmp.classification
               (.hourly 15 [⟨⟨2024, 9, 24⟩, 8⟩, ⟨⟨2024, 9, 26⟩, 4⟩]))
        ∧ (hourlyStore.setClassAt sampleEmp.classification
             (.hourly 15 [⟨⟨2024, 9, 24⟩, 8⟩, ⟨⟨2024, 9, 26⟩, 4⟩])).employees
            = hourlyStore.employees
        ∧ (hourlyStore.setClassAt sampleEmp.classification
             (.hourly 15 [⟨⟨2024, 9, 24⟩, 8⟩, ⟨⟨2024, 9, 26⟩, 4⟩])).classAt
              sampleEmp.classification
            = .hourly 15 [⟨⟨2024, 9, 24⟩, 8⟩, ⟨⟨2024, 9, 26⟩, 4⟩])) :=
  ⟨⟨rfl, fetch_shares_capability_handles.1 hourlyStore 1 sampleEmp rfl⟩,
   ⟨rfl, fetch_shares_capability_handles.2 hourlyStore 1 sampleEmp 15
      [⟨⟨2024, 9, 24⟩, 8⟩] ⟨⟨2024, 9, 26⟩, 4⟩ (.unexpectedAffiliation "mid-tx") rfl rfl⟩⟩

/-! ## C1 — PaydayTx batch settlement -/

/-- Full description of the payday loop: it always succeeds, changes
nothing but the paycheck map, and appends to each employee id the
expected paychecks of exactly the eligible employees carrying that id,
in iteration order. -/
theorem paydayLoop_spec (pay_date : Date) :
    ∀ (L : List Employee) (s : Store),
      (paydayLoop pay_date s L).1 = .ok ()
      ∧ (paydayLoop pay_date s L).2.employees = s.employees
      ∧ (paydayLoop pay_date s L).2.classHeap = s.classHeap
      ∧ (paydayLoop pay_date s L).2.schedHeap = s.schedHeap
      ∧ (paydayLoop pay_date s L).2.affHeap = s.affHeap
      ∧ (paydayLoop pay_date s L).2.union_members = s.union_members
      ∧ ∀ k : EmployeeId,
          (paydayLoop pay_date s L).2.paychecksOf k
            = s.paychecksOf k
              ++ ((L.filter (fun e => e.emp_id == k && Employee.isPayDate s e pay_date)).map
                  (fun e => expectedPaycheck s e pay_date)) := by
  intro L
  induction L with
  | nil =>
    intro s
    exact ⟨rfl, rfl, rfl, rfl, rfl, rfl, fun k => by simp [paydayLoop]⟩
  | cons e rest ih =>
    intro s
    by_cases helig : Employee.isPayDate s e pay_date = true
    · have hl : paydayLoop pay_date s (e :: rest)
          = paydayLoop pay_date
              (s.record_paycheck e.emp_id (expectedPaycheck s e pay_date)) rest := by
        simp only [paydayLoop, helig, if_true]
        rfl
      obtain ⟨hok, hemp', hch, hsh, hah, hun, hpc⟩ :=
        ih (s.record_paycheck e.emp_id (expectedPaycheck s e pay_date))
      rw [hl]
      refine ⟨hok,
        by rw [hemp', record_paycheck_employees],
        by rw [hch, record_paycheck_classHeap],
        by rw [hsh, record_paycheck_schedHeap],
        by rw [hah, record_paycheck_affHeap],
        by rw [hun, record_paycheck_union], ?_⟩
      intro k
      rw [hpc k]
      have hfil : rest.filter (fun e' => e'.emp_id == k
            && Employee.isPayDate (s.record_paycheck e.emp_id (expectedPaycheck s e pay_date))
                 e' pay_date)
          = rest.filter (fun e' => e'.emp_id == k && Employee.isPayDate s e' pay_date) := by
        apply List.filter_congr
        intro x _
        rw [isPayDate_record]
      have hmap : (rest.filter (fun e' => e'.emp_id == k
              && Employee.isPayDate s e' pay_date)).map
            (fun e' => expectedPaycheck
              (s.record_paycheck e.emp_id (expectedPaycheck s e pay_date)) e' pay_date)
          = (rest.filter (fun e' => e'.emp_id == k
              && Employee.isPayDate s e' pay_date)).map
            (fun e' => expectedPaycheck s e' pay_date) := by
        apply List.map_congr_left
        intro x _
        rw [expectedPaycheck_record]
      rw [hfil, hmap, List.filter_cons]
      by_cases hk : e.emp_id = k
      · have hcond : (e.emp_id == k && Employee.isPayDate s e pay_date) = true := by
          rw [helig]
          simp [hk]
        rw [if_pos hcond, List.map_cons]
        subst hk
        rw [record_paycheck_self, List.append_assoc]
        rfl
      · have hcond : (e.emp_id == k && Employee.isPayDate s e pay_date) = false := by
          simp [hk]
        rw [record_paycheck_other s e.emp_id k _ (fun h => hk h.symm)]
        simp only [hcond, Bool.false_eq_true, if_false]
    · have hfalse : Employee.isPayDate s e pay_date = false := by
        revert helig
        cases Employee.isPayDate s e pay_date <;> simp
      have hl : paydayLoop pay_date s (e :: rest) = paydayLoop pay_date s rest := by
        simp only [paydayLoop, hfalse, Bool.false_eq_true, if_false]
      obtain ⟨hok, hemp', hch, hsh, hah, hun, hpc⟩ := ih s
      rw [hl]
      refine ⟨hok, hemp', hch, hsh, hah, hun, ?_⟩
      intro k
      rw [hpc k, List.filter_cons]
      have hcond : (e.emp_id == k && Employee.isPayDate s e pay_date) = false := by
        simp [hfalse]
      simp only [hcond, Bool.false_eq_true, if_false]

/-- Among employees with pairwise-distinct keys, each matching its own
`emp_id`, filtering the values by id `k` (plus any predicate `q`) leaves
at most the one employee stored at `k`. -/
theorem filter_by_key_unique :
    ∀ (l : List (EmployeeId × Employee)) (k : EmployeeId) (e : Employee)
      (q : Employee → Bool),
      (l.map Prod.fst).Nodup →
      (∀ p ∈ l, (p.2).emp_id = p.1) →
      (k, e) ∈ l →
      (l.map Prod.snd).filter (fun e' => e'.emp_id == k && q e')
        = if q e then [e] else [] := by
  intro l
  induction l with
  | nil => intro k e q _ _ hmem; cases hmem
  | cons p rest ih =>
    intro k e q hnd hids hmem
    obtain ⟨k₀, e₀⟩ := p
    rcases List.mem_cons.mp hmem with heq | htail
    · have hk₀ : k = k₀ := congrArg Prod.fst heq
      have he₀ : e = e₀ := congrArg Prod.snd heq
      subst hk₀
      subst he₀
      have hid : e.emp_id = k := hids (k, e) (List.mem_cons_self _ _)
      have hrest : (rest.map Prod.snd).filter (fun e' => e'.emp_id == k && q e') = [] := by
        rw [List.filter_eq_nil_iff]
        intro e' he'
        obtain ⟨p', hp', hpe⟩ := List.mem_map.mp he'
        have hid' : e'.emp_id = p'.1 := hpe ▸ hids p' (List.mem_cons_of_mem _ hp')
        have hne : p'.1 ≠ k := by
          intro hcontra
          have : k ∈ rest.map Prod.fst :=
            hcontra ▸ List.mem_map.mpr ⟨p', hp', rfl⟩
          exact (List.nodup_cons.mp hnd).1 this
        simp [hid', hne]
      rw [List.map_cons, List.filter_cons, hrest]
      have : (e.emp_id == k) = true := by simp [hid]
      by_cases hq : q e = true
      · rw [if_pos (by simp [this, hq]), if_pos hq]
      · have hqf : q e = false := by revert hq; cases q e <;> simp
        rw [if_neg (by simp [hqf]), if_neg (by simp [hqf])]
    · have hk₀ : k₀ ≠ k := by
        intro hcontra
        subst hcontra
        have : k₀ ∈ rest.map Prod.fst := List.mem_map.mpr ⟨(k₀, e), htail, rfl⟩
        exact (List.nodup_cons.mp hnd).1 this
      have hid₀ : e₀.emp_id = k₀ := hids (k₀, e₀) (List.mem_cons_self _ _)
      rw [List.map_cons, List.filter_cons]
      rw [if_neg (by simp [hid₀, hk₀])]
      exact ih k e q (List.nodup_cons.mp hnd).2
        (fun p' hp' => hids p' (List.mem_cons_of_mem _ hp')) htail

/-- C1: a payday run always succeeds; for every stored employee a
paycheck is recorded iff the employee's schedule accepts the pay date,
and the recorded paycheck is the expected one (period from the schedule,
gross pay from the classification, deductions from the affiliation,
net = gross − deductions); when no stored employee matches, no paycheck
list changes at all. -/
theorem payday_settlement :
    ∀ (s : Store) (pay_date : Date),
      (s.employees.map Prod.fst).Nodup →
      (∀ p ∈ s.employees, (p.2).emp_id = p.1) →
      (paydayTx s pay_date).1 = .ok ()
      ∧ (∀ p ∈ s.employees,
          (paydayTx s pay_date).2.paychecksOf p.1
            = s.paychecksOf p.1
              ++ (if Employee.isPayDate s p.2 pay_date
                  then [expectedPaycheck s p.2 pay_date] else []))
      ∧ ((∀ p ∈ s.employees, Employee.isPayDate s p.2 pay_date = false) →
          ∀ k, (paydayTx s pay_date).2.paychecksOf k = s.paychecksOf k) := by
  intro s pay_date hnd hids
  obtain ⟨hok, _, _, _, _, _, hpc⟩ := paydayLoop_spec pay_date s.fetch_all s
  refine ⟨hok, ?_, ?_⟩
  · intro p hp
    obtain ⟨k, e⟩ := p
    have := hpc k
    rw [show (paydayTx s pay_date) = paydayLoop pay_date s s.fetch_all from rfl, this]
    have hfil := filter_by_key_unique s.employees k e
      (fun e' => Employee.isPayDate s e' pay_date) hnd hids hp
    rw [show s.fetch_all = s.employees.map Prod.snd from rfl, hfil]
    by_cases he : Employee.isPayDate s e pay_date = true
    · rw [if_pos he, if_pos he]
      rfl
    · rw [if_neg he, if_neg he]
      rfl
  · intro hnone k
    have := hpc k
    rw [show (paydayTx s pay_date) = paydayLoop pay_date s s.fetch_all from rfl, this]
    have hfil : (s.fetch_all).filter
        (fun e => e.emp_id == k && Employee.isPayDate s e pay_date) = [] := by
      rw [List.filter_eq_nil_iff]
      intro e he
      obtain ⟨p', hp', hpe⟩ := List.mem_map.mp he
      have := hnone p' hp'
      simp [hpe ▸ this]
    rw [hfil]
    simp

/-- Second sample employee: Hourly 15 on the Weekly schedule, handles at
slot 1 of the classification/schedule heaps. -/
def emp2 : Employee :=
  ⟨2, "Carol", "Away", 1, 1, 0, 0⟩

/-- Store with a Salaried/Monthly employee 1 and an Hourly/Weekly
employee 2; on 2024-09-30 (the last day of September, a Monday) only
employee 1 is eligible. -/
def paydayStore : Store :=
  { classHeap := [.salaried 1000, .hourly 15 []]
    schedHeap := [.monthly, .weekly]
    methodHeap := [.hold]
    affHeap := [.unaffiliated]
    employees := [(1, sampleEmp), (2, emp2)]
    union_members := []
    paychecks := [] }

/-- Witness for `payday_settlement` on `paydayStore` at 2024-09-30. -/
theorem payday_settlement_witness :
    (paydayStore.employees.map Prod.fst).Nodup
    ∧ (∀ p ∈ paydayStore.employees, (p.2).emp_id = p.1)
    ∧ ((paydayTx paydayStore ⟨2024, 9, 30⟩).1 = .ok ()
      ∧ (∀ p ∈ paydayStore.employees,
          (paydayTx paydayStore ⟨2024, 9, 30⟩).2.paychecksOf p.1
            = paydayStore.paychecksOf p.1
              ++ (if Employee.isPayDate paydayStore p.2 ⟨2024, 9, 30⟩
                  then [expectedPaycheck paydayStore p.2 ⟨2024, 9, 30⟩] else []))
      ∧ ((∀ p ∈ paydayStore.employees,
            Employee.isPayDate paydayStore p.2 ⟨2024, 9, 30⟩ = false) →
          ∀ k, (paydayTx paydayStore ⟨2024, 9, 30⟩).2.paychecksOf k
            = paydayStore.paychecksOf k)) :=
  ⟨by decide, by decide,
   payday_settlement paydayStore ⟨2024, 9, 30⟩ (by decide) (by decide)⟩

end Payment
